import Mathlib

/-!
# Verification of `python_minifier/compat.py` (Python source-compatibility detector)

This file gives a shallow embedding of `src/python_minifier/compat.py`
(`PythonSourceCompatibility` and `find_syntax_versions`) and proves the spec
claims about it.

Conventions of the embedding:

* Python version tuples `(major, minor)` become `Version := Nat × Nat` with the
  lexicographic comparison `verLt` that Python tuple comparison performs.
* `sys.version_info` becomes the `VersionInfo` structure; the source reads
  components `[1]` and `[2]` of it (see `PythonSourceCompatibility_init`).
* The visitor's mutable object state (`_min_version`, `_max_version`,
  `f_string_nesting`) becomes the `VState` structure, threaded explicitly.
* The `self.Version` exception used for exact pins becomes the `.error` branch
  of `Except Version VState`; normal visitor return is `.ok`.
* The `assert isinstance(module, ast.Module)` precondition failure in
  `__call__` becomes the `none` branch of `Option (Version × Version)`.
-/

/-- A Python language version `(major, minor)`. -/
abbrev Version := Nat × Nat

/-- Python tuple comparison `a < b` on `(major, minor)` pairs: lexicographic. -/
def verLt (a b : Version) : Prop :=
  a.1 < b.1 ∨ (a.1 = b.1 ∧ a.2 < b.2)

instance verLt.decidable (a b : Version) : Decidable (verLt a b) := by
  unfold verLt; infer_instance

/-- Python tuple comparison `a <= b`, stated as the negation of `verLt b a`. -/
def verLe (a b : Version) : Prop :=
  ¬ verLt b a

instance verLe.decidable (a b : Version) : Decidable (verLe a b) := by
  unfold verLe; infer_instance

/-- The larger of two versions in the lexicographic order. -/
def verMax (a b : Version) : Version :=
  if verLt a b then b else a

/-- Modelled from the spec: the host runtime's `sys.version_info`, the
externally supplied "host version" value (spec §6: "the detector must be told
the current host's version"). Only the numeric release components are
modelled. -/
structure VersionInfo where
  major : Nat
  minor : Nat
  micro : Nat

/-- Modelled from the spec: the syntax-tree node abstraction (spec §3/§6: a
kind tag, named child fields that hold a node, a list of nodes, or a non-node
scalar). One constructor per node kind that `compat.py` has a handler for,
plus `Other` for every kind absent from the rule table (spec §4.1: "a kind
absent from the table is a no-op: recurse into its children unchanged").
Non-node scalar fields are kept only where a handler reads them
(`FormattedValue.conversion`, `comprehension.is_async`); node-valued fields a
handler never distinguishes are collapsed into an ordered child list, which is
all `generic_visit` sees of them. `arg.ann` models the `annotation` field,
`varargAnn`/`kwargAnn` model `varargannotation`/`kwargannotation`. -/
inductive Node where
  | Module (body : List Node)
  | JoinedStr (values : List Node)
  | FormattedValue (value : Node) (conversion : Int) (format_spec : Option Node)
  | Str
  | Bytes
  | NamedExpr (children : List Node)
  | MatMult
  | AnnAssign (children : List Node)
  | arguments (posonlyargs kwonlyargs : List Node)
      (varargAnn kwargAnn : Option Node) (rest : List Node)
  | arg (ann : Option Node)
  | YieldFrom (children : List Node)
  | Nonlocal
  | AsyncFunctionDef (children : List Node)
  | Await (children : List Node)
  | AsyncFor (children : List Node)
  | AsyncWith (children : List Node)
  | Match (children : List Node)
  | Repr (children : List Node)
  | comprehension (is_async : Bool) (children : List Node)
  | TryStar (children : List Node)
  | TypeVar (bound : Option Node)
  | TypeVarTuple
  | ParamSpec
  | Other (children : List Node)
deriving Repr

/-- The visitor's state: fields `_min_version`, `_max_version` and
`f_string_nesting` of the `PythonSourceCompatibility` object. -/
structure VState where
  _min_version : Version
  _max_version : Version
  f_string_nesting : Nat
deriving Repr

/-- Source `PythonSourceCompatibility.set_minimum`: raise `_min_version` to
`(major, minor)` if larger; if `_max_version` is below `(major, minor)`,
raise it too. -/
def set_minimum (s : VState) (major minor : Nat) : VState :=
  let s1 := if verLt s._min_version (major, minor)
            then { s with _min_version := (major, minor) } else s
  if verLt s1._max_version (major, minor)
  then { s1 with _max_version := (major, minor) } else s1

mutual

/-- The visitor dispatch and the `visit_*` handlers of
`PythonSourceCompatibility`, one match arm per handler.

Modelled from the spec: the dispatch/`generic_visit` engine
(`python_minifier.util.NodeVisitor`) is not under `src/`; per the spec (§4.1)
the traversal consults the rule table keyed by node kind and recurses into
every child of a node, so each node kind is routed to its handler (in
particular the nonlocal-declaration kind to `visit_nonlocal`) and handlers'
`generic_visit` calls visit every node-valued child in field order.

`set_version(maj, min)` raises the `Version` exception, embedded as
`.error (maj, min)`; statements after it in a handler are unreachable. -/
def visit (s : VState) : Node → Except Version VState
  -- no visit_Module handler: generic_visit
  | .Module body => visitList s body
  -- visit_JoinedStr
  | .JoinedStr values =>
      let s1 := set_minimum s 3 6
      let s2 := { s1 with f_string_nesting := s1.f_string_nesting + 1 }
      if s2.f_string_nesting > 4 then
        .error (3, 12)
      else do
        let s3 ← visitList s2 values
        .ok { s3 with f_string_nesting := s3.f_string_nesting - 1 }
  -- visit_FormattedValue: visit every field except format_spec; the
  -- conversion field is a non-node scalar, so the isinstance checks skip it
  | .FormattedValue value _ _ => visit s value
  -- visit_Str
  | .Str =>
      if s.f_string_nesting + 1 > 4 then .error (3, 12) else .ok s
  -- visit_Bytes
  | .Bytes =>
      if s.f_string_nesting + 1 > 4 then .error (3, 12) else .ok s
  -- visit_NamedExpr
  | .NamedExpr children => visitList (set_minimum s 3 8) children
  -- visit_MatMult (an operator node: no node children for generic_visit)
  | .MatMult => .ok (set_minimum s 3 5)
  -- visit_AnnAssign
  | .AnnAssign children => visitList (set_minimum s 3 6) children
  -- visit_arguments: getattr with default [] / None makes an absent field
  -- behave as empty / None; an empty list and None are falsy
  | .arguments posonlyargs kwonlyargs varargAnn kwargAnn rest =>
      let s1 := if posonlyargs.isEmpty then s else set_minimum s 3 8
      let s2 := if kwonlyargs.isEmpty then s1 else set_minimum s1 3 0
      let s3 := if varargAnn.isSome then set_minimum s2 3 0 else s2
      let s4 := if kwargAnn.isSome then set_minimum s3 3 0 else s3
      do
        let s5 ← visitList s4 posonlyargs
        let s6 ← visitList s5 kwonlyargs
        let s7 ← visitOpt s6 varargAnn
        let s8 ← visitOpt s7 kwargAnn
        visitList s8 rest
  -- visit_arg: no generic_visit, so the annotation subtree is not entered
  | .arg ann =>
      if ann.isSome then .ok (set_minimum s 3 0) else .ok s
  -- visit_YieldFrom
  | .YieldFrom children => visitList (set_minimum s 3 3) children
  -- visit_nonlocal (names are non-node identifiers: nothing to recurse into)
  | .Nonlocal => .ok (set_minimum s 3 0)
  -- visit_AsyncFunctionDef
  | .AsyncFunctionDef children => visitList (set_minimum s 3 5) children
  -- visit_Await
  | .Await children => visitList (set_minimum s 3 5) children
  -- visit_AsyncFor
  | .AsyncFor children => visitList (set_minimum s 3 5) children
  -- visit_AsyncWith
  | .AsyncWith children => visitList (set_minimum s 3 5) children
  -- visit_Match
  | .Match children => visitList (set_minimum s 3 10) children
  -- visit_Repr: set_version(2, 7) raises, so the generic_visit after it is
  -- unreachable
  | .Repr _ => .error (2, 7)
  -- visit_comprehension
  | .comprehension is_async children =>
      visitList (if is_async then set_minimum s 3 6 else s) children
  -- visit_TryStar
  | .TryStar children => visitList (set_minimum s 3 11) children
  -- visit_TypeVar: set_version(3, 12) raises before generic_visit
  | .TypeVar _ => .error (3, 12)
  -- visit_TypeVarTuple
  | .TypeVarTuple => .error (3, 12)
  -- visit_ParamSpec
  | .ParamSpec => .error (3, 12)
  -- any kind without a handler: generic_visit
  | .Other children => visitList s children

/-- Source `generic_visit` over an ordered list of child nodes; the `Version`
exception propagates (short-circuits) exactly as the `Except` bind does. -/
def visitList (s : VState) : List Node → Except Version VState
  | [] => .ok s
  | n :: ns => do
      let s' ← visit s n
      visitList s' ns

/-- Source `generic_visit` over an optional child field: `None` is skipped. -/
def visitOpt (s : VState) : Option Node → Except Version VState
  | none => .ok s
  | some n => visit s n

end

/-- Source `PythonSourceCompatibility.__call__`: assert the root is a module (else
the precondition failure, embedded as `none`), visit it, and catch the
`Version` exception as a pinned `(v, v)` result. -/
def PythonSourceCompatibility_call (s : VState) (m : Node) :
    Option (Version × Version) :=
  match m with
  | .Module _ =>
      some (match visit s m with
            | .ok s' => (s'._min_version, s'._max_version)
            | .error v => (v, v))
  | _ => none

/-- Source `PythonSourceCompatibility.__init__`: `_min_version = (2, 7)`,
`_max_version = sys.version_info[1], sys.version_info[2]` (note: components
`[1]` and `[2]` are the minor and micro numbers of the host runtime), and
`f_string_nesting = 0`. -/
def PythonSourceCompatibility_init (vi : VersionInfo) : VState :=
  { _min_version := (2, 7)
  , _max_version := (vi.minor, vi.micro)
  , f_string_nesting := 0 }

/-- Source `find_syntax_versions`: construct a fresh `PythonSourceCompatibility`
object and call it on the module. -/
def find_syntax_versions (vi : VersionInfo) (m : Node) :
    Option (Version × Version) :=
  PythonSourceCompatibility_call (PythonSourceCompatibility_init vi) m

/-- A fresh visitor state whose ceiling is `c` and whose floor and nesting
counter have the fixed initial values of `__init__`. -/
def initVState (c : Version) : VState :=
  { _min_version := (2, 7), _max_version := c, f_string_nesting := 0 }

/-- Modelled from the spec: `detect(root)` with the initial ceiling supplied
externally as an abstract parameter `c` (spec §6: "Host parameter: the
detector must be told the current host's version (major, minor) to use as the
default ceiling"). The traversal itself is `PythonSourceCompatibility_call`,
exactly as in the source; only the initial `_max_version` is abstracted. -/
def detect (c : Version) (m : Node) : Option (Version × Version) :=
  PythonSourceCompatibility_call (initVState c) m

/-- Two successive runs of `find_syntax_versions` on the same tree and the
same host version, as performed by a caller invoking the detection twice;
each run constructs its own fresh `PythonSourceCompatibility` object. -/
def runDetectionTwice (vi : VersionInfo) (m : Node) :
    Option (Version × Version) × Option (Version × Version) :=
  (find_syntax_versions vi m, find_syntax_versions vi m)

/-- The nesting-boundary test tree: `nestedFString k` is `k` formatted-string
literals nested through their formatted-value fields, the innermost
containing a plain string literal. -/
def nestedFString : Nat → Node
  | 0 => .Str
  | k + 1 => .JoinedStr [.FormattedValue (nestedFString k) 0 none]

/-- Closed form of `set_minimum`: both bounds move to the lexicographic
maximum of their current value and the supplied version. -/
theorem set_minimum_eq (s : VState) (major minor : Nat) :
    set_minimum s major minor =
      { s with _min_version := verMax s._min_version (major, minor)
             , _max_version := verMax s._max_version (major, minor) } := by
  rcases s with ⟨mn, mx, n⟩
  by_cases h1 : verLt mn (major, minor) <;>
    by_cases h2 : verLt mx (major, minor) <;>
      simp [set_minimum, verMax, h1, h2]

/-- C1: the claim expects `detect` on a tree with none of the special kinds to
return `((2,7), host_version)` with `host_version` the host's
`(major, minor)`. The code instead initializes the ceiling from
`sys.version_info[1], sys.version_info[2]`, the host's `(minor, micro)`: on
host 3.12.4 the empty module yields `((2,7), (12,4))`, not `((2,7), (3,12))`.
This theorem evaluates the code at that failing input. -/
theorem claim_C1_code_eval :
    find_syntax_versions ⟨3, 12, 4⟩ (.Module []) = some ((2, 7), (12, 4)) ∧
    ((12, 4) : Version) ≠ ((3, 12) : Version) := by
  constructor
  · simp [find_syntax_versions, PythonSourceCompatibility_call,
      PythonSourceCompatibility_init, visit, visitList]
  · decide

/-- C3: a module whose only special node is a nonlocal declaration yields a
floor of `(3,0)` (and a ceiling of `max(c, (3,0))` for any initial ceiling
`c`), not the initial `(2,7)`. -/
theorem claim_C3 (c : Version) :
    detect c (.Module [.Nonlocal]) = some ((3, 0), verMax c (3, 0)) := by
  simp [detect, PythonSourceCompatibility_call, initVState, visit, visitList,
    set_minimum_eq, Bind.bind, Except.bind, verMax, verLt]

/-- C7: a module-rooted tree containing only a legacy string-conversion
expression (`Repr`) node yields exactly `((2,7), (2,7))`, whatever the
initial ceiling `c` was: the pin collapses both bounds. -/
theorem claim_C7 (c : Version) (children : List Node) :
    detect c (.Module [.Repr children]) = some ((2, 7), (2, 7)) := by
  simp [detect, PythonSourceCompatibility_call, initVState, visit, visitList,
    Bind.bind, Except.bind]

/-- C10: a parameter-list node with present-but-empty position-only and
keyword-only lists (and no starred annotations) leaves the state unchanged,
as does a single parameter with no annotation; a non-empty position-only
list raises the `(3,8)` floor, a non-empty keyword-only list and a present
annotation raise the `(3,0)` floor. -/
theorem claim_C10 (s : VState) :
    visit s (.arguments [] [] none none []) = .ok s ∧
    visit s (.arg none) = .ok s ∧
    visit s (.arguments [.arg none] [] none none []) =
      .ok (set_minimum s 3 8) ∧
    visit s (.arguments [] [.arg none] none none []) =
      .ok (set_minimum s 3 0) ∧
    visit s (.arg (some .Str)) = .ok (set_minimum s 3 0) := by
  refine ⟨?_, ?_, ?_, ?_, ?_⟩ <;>
    simp [visit, visitList, visitOpt, Bind.bind, Except.bind]

/-- C6: calling the detector with a non-module root hits the precondition
failure (the `assert`) before any traversal runs, embedded as `none`; every
module-rooted tree instead produces some version interval. -/
theorem claim_C6 :
    (∀ (c : Version) (root : Node),
        (∀ body, root ≠ .Module body) → detect c root = none) ∧
    (∀ (c : Version) (body : List Node),
        ∃ p, detect c (.Module body) = some p) := by
  constructor
  · intro c root h
    cases root with
    | Module body => exact absurd rfl (h body)
    | _ => rfl
  · intro c body
    exact ⟨_, rfl⟩

/-- C6 witness: a plain string literal as root is rejected with `none`; a
module root (even one containing a pin-producing node) yields an interval. -/
theorem claim_C6_witness :
    detect (3, 13) .Str = none ∧
    ∃ p, detect (3, 13) (.Module [.TypeVar none]) = some p :=
  ⟨claim_C6.1 (3, 13) .Str (fun _ h => Node.noConfusion h),
   claim_C6.2 (3, 13) [.TypeVar none]⟩

/-- C9: running the detection twice on the same unmutated tree with the same
host version yields identical results, and each run starts from the fixed
fresh state that `__init__` constructs (floor `(2,7)`, ceiling read from the
supplied version info, nesting counter `0`), so no state survives between
the two runs: the result is a pure function of the tree and the supplied
host version info. -/
theorem claim_C9 (vi : VersionInfo) (m : Node) :
    (runDetectionTwice vi m).1 = (runDetectionTwice vi m).2 ∧
    PythonSourceCompatibility_init vi =
      { _min_version := (2, 7), _max_version := (vi.minor, vi.micro)
      , f_string_nesting := 0 } ∧
    runDetectionTwice vi m =
      (PythonSourceCompatibility_call (PythonSourceCompatibility_init vi) m,
       PythonSourceCompatibility_call (PythonSourceCompatibility_init vi) m) :=
  ⟨rfl, rfl, rfl⟩

/-- C2: four total nesting levels of formatted-string literals with a plain
string literal innermost breach the 4-deep boundary (the string literal is
met while the counter is at 4) and pin `((3,12), (3,12))`; the same structure
with only three nesting levels raises the `(3,6)` floor and produces no pin
(the traversal ends in the `.ok` branch with the nesting counter restored). -/
theorem claim_C2 (c : Version) :
    detect c (.Module [nestedFString 4]) = some ((3, 12), (3, 12)) ∧
    visit (initVState c) (.Module [nestedFString 3]) =
      .ok { _min_version := (3, 6), _max_version := verMax c (3, 6)
          , f_string_nesting := 0 } ∧
    detect c (.Module [nestedFString 3]) = some ((3, 6), verMax c (3, 6)) := by
  by_cases h : verLt c (3, 6) <;> simp only [verLt] at h <;>
    refine ⟨?_, ?_, ?_⟩ <;>
      simp [detect, PythonSourceCompatibility_call, initVState, nestedFString,
        visit, visitList, set_minimum_eq, Bind.bind, Except.bind, verMax,
        verLt, h]

/-- Traversal of a concatenated child list is traversal of the first part
bound into traversal of the second: the `Version` exception short-circuits. -/
theorem visitList_append (l1 l2 : List Node) (s : VState) :
    visitList s (l1 ++ l2) =
      (visitList s l1 >>= fun s' => visitList s' l2) := by
  induction l1 generalizing s with
  | nil => simp [visitList, Bind.bind, Except.bind]
  | cons n ns ih =>
      simp only [List.cons_append, visitList]
      cases visit s n with
      | error e => simp [Bind.bind, Except.bind]
      | ok s' => simp [Bind.bind, Except.bind, ih s']

/-- C4: each type-parameter declaration node (generic type variable, variadic
type variable, parameter specification) pins `(3,12)` from any visitor state,
and whenever a type-parameter node is reached with no pin produced before it
(the preceding siblings traverse to an `.ok` state `s0`, whatever floors they
raised), the whole result is exactly `((3,12), (3,12))`: the pin discards the
accumulated interval and the rest of the tree (`post`) is never consulted. -/
theorem claim_C4 :
    (∀ (s : VState) (b : Option Node),
        visit s (.TypeVar b) = .error (3, 12) ∧
        visit s .TypeVarTuple = .error (3, 12) ∧
        visit s .ParamSpec = .error (3, 12)) ∧
    (∀ (c : Version) (pre post : List Node) (s0 : VState),
        visitList (initVState c) pre = .ok s0 →
        detect c (.Module (pre ++ .TypeVar none :: post)) =
          some ((3, 12), (3, 12))) := by
  constructor
  · intro s b
    refine ⟨?_, ?_, ?_⟩ <;> simp [visit]
  · intro c pre post s0 h
    simp [detect, PythonSourceCompatibility_call, visit, visitList_append, h,
      visitList, Bind.bind, Except.bind]

/-- C4 witness: with host ceiling `(3,13)`, a nonlocal declaration before the
type-parameter node raises the `(3,0)` floor, yet the result is exactly
`((3,12), (3,12))`; the legacy `Repr` pin after it is never reached. -/
theorem claim_C4_witness :
    visitList (initVState (3, 13)) [.Nonlocal] =
      .ok { _min_version := (3, 0), _max_version := (3, 13)
          , f_string_nesting := 0 } ∧
    detect (3, 13) (.Module ([.Nonlocal] ++ .TypeVar none :: [.Repr []])) =
      some ((3, 12), (3, 12)) := by
  have h : visitList (initVState (3, 13)) [.Nonlocal] =
      .ok { _min_version := (3, 0), _max_version := (3, 13)
          , f_string_nesting := 0 } := by
    simp [visitList, visit, initVState, set_minimum, verLt, Bind.bind,
      Except.bind]
  exact ⟨h, claim_C4.2 (3, 13) [.Nonlocal] [.Repr []] _ h⟩

/-- The interval invariant: the floor is at or below the ceiling. -/
def StateInv (s : VState) : Prop :=
  verLe s._min_version s._max_version

/-- Reflexivity of the version order. -/
theorem verLe_refl (a : Version) : verLe a a := by
  simp [verLe, verLt]

/-- Taking the maximum with a common version preserves the order. -/
theorem verMax_mono (a b v : Version) (h : verLe a b) :
    verLe (verMax a v) (verMax b v) := by
  simp only [verLe, verLt, verMax] at *
  split <;> split <;> omega

/-- Raising a floor keeps the interval non-inverted: since `set_minimum`
raises the ceiling whenever the new floor would pass it, the invariant is
preserved. -/
theorem set_minimum_inv (s : VState) (major minor : Nat) (h : StateInv s) :
    StateInv (set_minimum s major minor) := by
  simp only [StateInv, set_minimum_eq] at *
  exact verMax_mono _ _ _ h

/-- Conditionally raising a floor (else-branch raise) preserves the
invariant. -/
theorem ite_set_minimum_inv (c : Prop) [Decidable c] (s : VState)
    (a b : Nat) (h : StateInv s) :
    StateInv (if c then s else set_minimum s a b) := by
  split
  · exact h
  · exact set_minimum_inv s a b h

/-- Conditionally raising a floor (then-branch raise) preserves the
invariant. -/
theorem ite_set_minimum_inv' (c : Prop) [Decidable c] (s : VState)
    (a b : Nat) (h : StateInv s) :
    StateInv (if c then set_minimum s a b else s) := by
  split
  · exact set_minimum_inv s a b h
  · exact h

/-- Inversion for a successful bind in the exception monad. -/
theorem except_bind_ok {x : Except Version VState}
    {f : VState → Except Version VState} {s' : VState}
    (h : (x >>= f) = .ok s') : ∃ s0, x = .ok s0 ∧ f s0 = .ok s' := by
  cases x with
  | ok a => exact ⟨a, rfl, h⟩
  | error e => exact Except.noConfusion h

mutual

/-- Visiting any node from a non-inverted state that returns normally
returns a non-inverted state. -/
theorem visit_inv : ∀ (t : Node) (s s' : VState),
    StateInv s → visit s t = .ok s' → StateInv s'
  | .Module body, s, s', h, hv => by
      simp only [visit] at hv
      exact visitList_inv body s s' h hv
  | .JoinedStr values, s, s', h, hv => by
      simp only [visit] at hv
      split at hv
      · exact Except.noConfusion hv
      · obtain ⟨s3, h3, hok⟩ := except_bind_ok hv
        cases Except.ok.inj hok
        have h2 : StateInv { set_minimum s 3 6 with
            f_string_nesting := (set_minimum s 3 6).f_string_nesting + 1 } :=
          set_minimum_inv s 3 6 h
        exact visitList_inv values _ s3 h2 h3
  | .FormattedValue value k fs, s, s', h, hv => by
      simp only [visit] at hv
      exact visit_inv value s s' h hv
  | .Str, s, s', h, hv => by
      simp only [visit] at hv
      split at hv
      · exact Except.noConfusion hv
      · cases Except.ok.inj hv; exact h
  | .Bytes, s, s', h, hv => by
      simp only [visit] at hv
      split at hv
      · exact Except.noConfusion hv
      · cases Except.ok.inj hv; exact h
  | .NamedExpr children, s, s', h, hv => by
      simp only [visit] at hv
      exact visitList_inv children _ s' (set_minimum_inv s 3 8 h) hv
  | .MatMult, s, s', h, hv => by
      simp only [visit] at hv
      cases Except.ok.inj hv
      exact set_minimum_inv s 3 5 h
  | .AnnAssign children, s, s', h, hv => by
      simp only [visit] at hv
      exact visitList_inv children _ s' (set_minimum_inv s 3 6 h) hv
  | .arguments posonlyargs kwonlyargs varargAnn kwargAnn rest, s, s', h, hv => by
      simp only [visit] at hv
      obtain ⟨s5, h5, hv⟩ := except_bind_ok hv
      obtain ⟨s6, h6, hv⟩ := except_bind_ok hv
      obtain ⟨s7, h7, hv⟩ := except_bind_ok hv
      obtain ⟨s8, h8, hv⟩ := except_bind_ok hv
      have i5 := visitList_inv posonlyargs _ s5
        (ite_set_minimum_inv' _ _ _ _
          (ite_set_minimum_inv' _ _ _ _
            (ite_set_minimum_inv _ _ _ _
              (ite_set_minimum_inv _ _ _ _ h)))) h5
      have i6 := visitList_inv kwonlyargs _ s6 i5 h6
      have i7 := visitOpt_inv varargAnn _ s7 i6 h7
      have i8 := visitOpt_inv kwargAnn _ s8 i7 h8
      exact visitList_inv rest _ s' i8 hv
  | .arg ann, s, s', h, hv => by
      simp only [visit] at hv
      split at hv
      · cases Except.ok.inj hv; exact set_minimum_inv s 3 0 h
      · cases Except.ok.inj hv; exact h
  | .YieldFrom children, s, s', h, hv => by
      simp only [visit] at hv
      exact visitList_inv children _ s' (set_minimum_inv s 3 3 h) hv
  | .Nonlocal, s, s', h, hv => by
      simp only [visit] at hv
      cases Except.ok.inj hv
      exact set_minimum_inv s 3 0 h
  | .AsyncFunctionDef children, s, s', h, hv => by
      simp only [visit] at hv
      exact visitList_inv children _ s' (set_minimum_inv s 3 5 h) hv
  | .Await children, s, s', h, hv => by
      simp only [visit] at hv
      exact visitList_inv children _ s' (set_minimum_inv s 3 5 h) hv
  | .AsyncFor children, s, s', h, hv => by
      simp only [visit] at hv
      exact visitList_inv children _ s' (set_minimum_inv s 3 5 h) hv
  | .AsyncWith children, s, s', h, hv => by
      simp only [visit] at hv
      exact visitList_inv children _ s' (set_minimum_inv s 3 5 h) hv
  | .Match children, s, s', h, hv => by
      simp only [visit] at hv
      exact visitList_inv children _ s' (set_minimum_inv s 3 10 h) hv
  | .Repr children, s, s', h, hv => by
      simp only [visit] at hv
      exact Except.noConfusion hv
  | .comprehension is_async children, s, s', h, hv => by
      simp only [visit] at hv
      exact visitList_inv children _ s' (ite_set_minimum_inv' _ _ _ _ h) hv
  | .TryStar children, s, s', h, hv => by
      simp only [visit] at hv
      exact visitList_inv children _ s' (set_minimum_inv s 3 11 h) hv
  | .TypeVar b, s, s', h, hv => by
      simp only [visit] at hv
      exact Except.noConfusion hv
  | .TypeVarTuple, s, s', h, hv => by
      simp only [visit] at hv
      exact Except.noConfusion hv
  | .ParamSpec, s, s', h, hv => by
      simp only [visit] at hv
      exact Except.noConfusion hv
  | .Other children, s, s', h, hv => by
      simp only [visit] at hv
      exact visitList_inv children s s' h hv

/-- Visiting a child list from a non-inverted state that returns normally
returns a non-inverted state. -/
theorem visitList_inv : ∀ (l : List Node) (s s' : VState),
    StateInv s → visitList s l = .ok s' → StateInv s'
  | [], s, s', h, hv => by
      simp only [visitList] at hv
      cases Except.ok.inj hv
      exact h
  | n :: ns, s, s', h, hv => by
      simp only [visitList] at hv
      obtain ⟨s0, h0, h1⟩ := except_bind_ok hv
      exact visitList_inv ns s0 s' (visit_inv n s s0 h h0) h1

/-- Visiting an optional child from a non-inverted state that returns
normally returns a non-inverted state. -/
theorem visitOpt_inv : ∀ (o : Option Node) (s s' : VState),
    StateInv s → visitOpt s o = .ok s' → StateInv s'
  | none, s, s', h, hv => by
      simp only [visitOpt] at hv
      cases Except.ok.inj hv
      exact h
  | some n, s, s', h, hv => by
      simp only [visitOpt] at hv
      exact visit_inv n s s' h hv

end

/-- C5: for every module-rooted tree accepted by the precondition, the
returned pair satisfies `low ≤ high` whenever the initial ceiling is at
least the initial `(2,7)` floor (as the host version always is), including
pinned results where `low = high`; moreover `set_minimum` never inverts the
interval: raising the floor past the current ceiling raises the ceiling. -/
theorem claim_C5 :
    (∀ (c : Version) (m : Node) (p : Version × Version),
        verLe (2, 7) c → detect c m = some p → verLe p.1 p.2) ∧
    (∀ (s : VState) (major minor : Nat),
        verLe s._min_version s._max_version →
        verLe (set_minimum s major minor)._min_version
          (set_minimum s major minor)._max_version) := by
  constructor
  · intro c m p hc hd
    cases m with
    | Module body =>
        simp only [detect, PythonSourceCompatibility_call] at hd
        cases hv : visit (initVState c) (.Module body) with
        | ok s1 =>
            rw [hv] at hd
            cases Option.some.inj hd
            exact visit_inv (.Module body) (initVState c) s1 hc hv
        | error v =>
            rw [hv] at hd
            cases Option.some.inj hd
            exact verLe_refl v
    | _ =>
        exact Option.noConfusion hd
  · intro s major minor h
    exact set_minimum_inv s major minor h

/-- C5 witness: at host ceiling `(3,13)` the empty module's interval is
ordered, and raising the `(3,10)` floor on a state `⟨(3,0), (3,5)⟩` keeps
the interval ordered (the ceiling is dragged up to `(3,10)`). -/
theorem claim_C5_witness :
    verLe (((2, 7), (3, 13)) : Version × Version).1
      (((2, 7), (3, 13)) : Version × Version).2 ∧
    verLe (set_minimum ⟨(3, 0), (3, 5), 0⟩ 3 10)._min_version
      (set_minimum ⟨(3, 0), (3, 5), 0⟩ 3 10)._max_version :=
  ⟨claim_C5.1 (3, 13) (.Module []) ((2, 7), (3, 13)) (by decide)
      (by simp [detect, PythonSourceCompatibility_call, initVState, visit,
        visitList]),
   claim_C5.2 ⟨(3, 0), (3, 5), 0⟩ 3 10 (by decide)⟩

/-- Congruence for binds with pointwise-equal continuations. -/
theorem bind_congr_fun {x : Except Version VState}
    {f g : VState → Except Version VState} (h : ∀ s, f s = g s) :
    (x >>= f) = (x >>= g) := by
  cases x <;> simp [Bind.bind, Except.bind, h]

mutual

/-- Canonicalize every `format_spec` field of a formatted-value node to
`none`, recursing into all other fields: two trees have the same image
exactly when they differ only in format-specifier subtrees. -/
def eraseSpecs : Node → Node
  | .Module body => .Module (eraseSpecsList body)
  | .JoinedStr values => .JoinedStr (eraseSpecsList values)
  | .FormattedValue v k _ => .FormattedValue (eraseSpecs v) k none
  | .Str => .Str
  | .Bytes => .Bytes
  | .NamedExpr c => .NamedExpr (eraseSpecsList c)
  | .MatMult => .MatMult
  | .AnnAssign c => .AnnAssign (eraseSpecsList c)
  | .arguments p k va ka r =>
      .arguments (eraseSpecsList p) (eraseSpecsList k)
        (eraseSpecsOpt va) (eraseSpecsOpt ka) (eraseSpecsList r)
  | .arg a => .arg (eraseSpecsOpt a)
  | .YieldFrom c => .YieldFrom (eraseSpecsList c)
  | .Nonlocal => .Nonlocal
  | .AsyncFunctionDef c => .AsyncFunctionDef (eraseSpecsList c)
  | .Await c => .Await (eraseSpecsList c)
  | .AsyncFor c => .AsyncFor (eraseSpecsList c)
  | .AsyncWith c => .AsyncWith (eraseSpecsList c)
  | .Match c => .Match (eraseSpecsList c)
  | .Repr c => .Repr (eraseSpecsList c)
  | .comprehension b c => .comprehension b (eraseSpecsList c)
  | .TryStar c => .TryStar (eraseSpecsList c)
  | .TypeVar b => .TypeVar (eraseSpecsOpt b)
  | .TypeVarTuple => .TypeVarTuple
  | .ParamSpec => .ParamSpec
  | .Other c => .Other (eraseSpecsList c)

/-- List version of `eraseSpecs`. -/
def eraseSpecsList : List Node → List Node
  | [] => []
  | n :: ns => eraseSpecs n :: eraseSpecsList ns

/-- Option version of `eraseSpecs`. -/
def eraseSpecsOpt : Option Node → Option Node
  | none => none
  | some n => some (eraseSpecs n)

end

mutual

/-- Canonicalize every `conversion` field of a formatted-value node to `0`,
recursing into all fields (format specifiers included): two trees have the
same image exactly when they differ only in conversion flags. -/
def zeroConv : Node → Node
  | .Module body => .Module (zeroConvList body)
  | .JoinedStr values => .JoinedStr (zeroConvList values)
  | .FormattedValue v _ fs => .FormattedValue (zeroConv v) 0 (zeroConvOpt fs)
  | .Str => .Str
  | .Bytes => .Bytes
  | .NamedExpr c => .NamedExpr (zeroConvList c)
  | .MatMult => .MatMult
  | .AnnAssign c => .AnnAssign (zeroConvList c)
  | .arguments p k va ka r =>
      .arguments (zeroConvList p) (zeroConvList k)
        (zeroConvOpt va) (zeroConvOpt ka) (zeroConvList r)
  | .arg a => .arg (zeroConvOpt a)
  | .YieldFrom c => .YieldFrom (zeroConvList c)
  | .Nonlocal => .Nonlocal
  | .AsyncFunctionDef c => .AsyncFunctionDef (zeroConvList c)
  | .Await c => .Await (zeroConvList c)
  | .AsyncFor c => .AsyncFor (zeroConvList c)
  | .AsyncWith c => .AsyncWith (zeroConvList c)
  | .Match c => .Match (zeroConvList c)
  | .Repr c => .Repr (zeroConvList c)
  | .comprehension b c => .comprehension b (zeroConvList c)
  | .TryStar c => .TryStar (zeroConvList c)
  | .TypeVar b => .TypeVar (zeroConvOpt b)
  | .TypeVarTuple => .TypeVarTuple
  | .ParamSpec => .ParamSpec
  | .Other c => .Other (zeroConvList c)

/-- List version of `zeroConv`. -/
def zeroConvList : List Node → List Node
  | [] => []
  | n :: ns => zeroConv n :: zeroConvList ns

/-- Option version of `zeroConv`. -/
def zeroConvOpt : Option Node → Option Node
  | none => none
  | some n => some (zeroConv n)

end

/-- Erasing format specifiers preserves emptiness of child lists. -/
theorem eraseSpecsList_isEmpty (l : List Node) :
    (eraseSpecsList l).isEmpty = l.isEmpty := by
  cases l <;> simp [eraseSpecsList]

/-- Erasing format specifiers preserves presence of optional children. -/
theorem eraseSpecsOpt_isSome (o : Option Node) :
    (eraseSpecsOpt o).isSome = o.isSome := by
  cases o <;> simp [eraseSpecsOpt]

/-- Zeroing conversion flags preserves emptiness of child lists. -/
theorem zeroConvList_isEmpty (l : List Node) :
    (zeroConvList l).isEmpty = l.isEmpty := by
  cases l <;> simp [zeroConvList]

/-- Zeroing conversion flags preserves presence of optional children. -/
theorem zeroConvOpt_isSome (o : Option Node) :
    (zeroConvOpt o).isSome = o.isSome := by
  cases o <;> simp [zeroConvOpt]

mutual

/-- The traversal never reads format-specifier subtrees: visiting the
erased tree equals visiting the original from any state. -/
theorem visit_eraseSpecs : ∀ (t : Node) (s : VState),
    visit s (eraseSpecs t) = visit s t
  | .Module body, s => by
      simp only [eraseSpecs, visit]
      exact visitList_eraseSpecs body s
  | .JoinedStr values, s => by
      simp only [eraseSpecs, visit]
      rw [visitList_eraseSpecs values]
  | .FormattedValue v k fs, s => by
      simp only [eraseSpecs, visit]
      exact visit_eraseSpecs v s
  | .Str, s => by simp only [eraseSpecs]
  | .Bytes, s => by simp only [eraseSpecs]
  | .NamedExpr c, s => by
      simp only [eraseSpecs, visit]
      exact visitList_eraseSpecs c _
  | .MatMult, s => by simp only [eraseSpecs]
  | .AnnAssign c, s => by
      simp only [eraseSpecs, visit]
      exact visitList_eraseSpecs c _
  | .arguments p k va ka r, s => by
      simp only [eraseSpecs, visit, eraseSpecsList_isEmpty,
        eraseSpecsOpt_isSome]
      rw [visitList_eraseSpecs p]
      apply bind_congr_fun; intro s5
      rw [visitList_eraseSpecs k]
      apply bind_congr_fun; intro s6
      rw [visitOpt_eraseSpecs va]
      apply bind_congr_fun; intro s7
      rw [visitOpt_eraseSpecs ka]
      apply bind_congr_fun; intro s8
      exact visitList_eraseSpecs r s8
  | .arg a, s => by
      simp only [eraseSpecs, visit, eraseSpecsOpt_isSome]
  | .YieldFrom c, s => by
      simp only [eraseSpecs, visit]
      exact visitList_eraseSpecs c _
  | .Nonlocal, s => by simp only [eraseSpecs]
  | .AsyncFunctionDef c, s => by
      simp only [eraseSpecs, visit]
      exact visitList_eraseSpecs c _
  | .Await c, s => by
      simp only [eraseSpecs, visit]
      exact visitList_eraseSpecs c _
  | .AsyncFor c, s => by
      simp only [eraseSpecs, visit]
      exact visitList_eraseSpecs c _
  | .AsyncWith c, s => by
      simp only [eraseSpecs, visit]
      exact visitList_eraseSpecs c _
  | .Match c, s => by
      simp only [eraseSpecs, visit]
      exact visitList_eraseSpecs c _
  | .Repr c, s => by simp only [eraseSpecs, visit]
  | .comprehension b c, s => by
      simp only [eraseSpecs, visit]
      exact visitList_eraseSpecs c _
  | .TryStar c, s => by
      simp only [eraseSpecs, visit]
      exact visitList_eraseSpecs c _
  | .TypeVar b, s => by simp only [eraseSpecs, visit]
  | .TypeVarTuple, s => by simp only [eraseSpecs]
  | .ParamSpec, s => by simp only [eraseSpecs]
  | .Other c, s => by
      simp only [eraseSpecs, visit]
      exact visitList_eraseSpecs c s

/-- List version of `visit_eraseSpecs`. -/
theorem visitList_eraseSpecs : ∀ (l : List Node) (s : VState),
    visitList s (eraseSpecsList l) = visitList s l
  | [], s => by simp only [eraseSpecsList]
  | n :: ns, s => by
      simp only [eraseSpecsList, visitList]
      rw [visit_eraseSpecs n s]
      apply bind_congr_fun
      intro s'
      exact visitList_eraseSpecs ns s'

/-- Option version of `visit_eraseSpecs`. -/
theorem visitOpt_eraseSpecs : ∀ (o : Option Node) (s : VState),
    visitOpt s (eraseSpecsOpt o) = visitOpt s o
  | none, s => by simp only [eraseSpecsOpt]
  | some n, s => by
      simp only [eraseSpecsOpt, visitOpt]
      exact visit_eraseSpecs n s

end

mutual

/-- The traversal never reads conversion flags: visiting the tree with
zeroed conversions equals visiting the original from any state. -/
theorem visit_zeroConv : ∀ (t : Node) (s : VState),
    visit s (zeroConv t) = visit s t
  | .Module body, s => by
      simp only [zeroConv, visit]
      exact visitList_zeroConv body s
  | .JoinedStr values, s => by
      simp only [zeroConv, visit]
      rw [visitList_zeroConv values]
  | .FormattedValue v k fs, s => by
      simp only [zeroConv, visit]
      exact visit_zeroConv v s
  | .Str, s => by simp only [zeroConv]
  | .Bytes, s => by simp only [zeroConv]
  | .NamedExpr c, s => by
      simp only [zeroConv, visit]
      exact visitList_zeroConv c _
  | .MatMult, s => by simp only [zeroConv]
  | .AnnAssign c, s => by
      simp only [zeroConv, visit]
      exact visitList_zeroConv c _
  | .arguments p k va ka r, s => by
      simp only [zeroConv, visit, zeroConvList_isEmpty,
        zeroConvOpt_isSome]
      rw [visitList_zeroConv p]
      apply bind_congr_fun; intro s5
      rw [visitList_zeroConv k]
      apply bind_congr_fun; intro s6
      rw [visitOpt_zeroConv va]
      apply bind_congr_fun; intro s7
      rw [visitOpt_zeroConv ka]
      apply bind_congr_fun; intro s8
      exact visitList_zeroConv r s8
  | .arg a, s => by
      simp only [zeroConv, visit, zeroConvOpt_isSome]
  | .YieldFrom c, s => by
      simp only [zeroConv, visit]
      exact visitList_zeroConv c _
  | .Nonlocal, s => by simp only [zeroConv]
  | .AsyncFunctionDef c, s => by
      simp only [zeroConv, visit]
      exact visitList_zeroConv c _
  | .Await c, s => by
      simp only [zeroConv, visit]
      exact visitList_zeroConv c _
  | .AsyncFor c, s => by
      simp only [zeroConv, visit]
      exact visitList_zeroConv c _
  | .AsyncWith c, s => by
      simp only [zeroConv, visit]
      exact visitList_zeroConv c _
  | .Match c, s => by
      simp only [zeroConv, visit]
      exact visitList_zeroConv c _
  | .Repr c, s => by simp only [zeroConv, visit]
  | .comprehension b c, s => by
      simp only [zeroConv, visit]
      exact visitList_zeroConv c _
  | .TryStar c, s => by
      simp only [zeroConv, visit]
      exact visitList_zeroConv c _
  | .TypeVar b, s => by simp only [zeroConv, visit]
  | .TypeVarTuple, s => by simp only [zeroConv]
  | .ParamSpec, s => by simp only [zeroConv]
  | .Other c, s => by
      simp only [zeroConv, visit]
      exact visitList_zeroConv c s

/-- List version of `visit_zeroConv`. -/
theorem visitList_zeroConv : ∀ (l : List Node) (s : VState),
    visitList s (zeroConvList l) = visitList s l
  | [], s => by simp only [zeroConvList]
  | n :: ns, s => by
      simp only [zeroConvList, visitList]
      rw [visit_zeroConv n s]
      apply bind_congr_fun
      intro s'
      exact visitList_zeroConv ns s'

/-- Option version of `visit_zeroConv`. -/
theorem visitOpt_zeroConv : ∀ (o : Option Node) (s : VState),
    visitOpt s (zeroConvOpt o) = visitOpt s o
  | none, s => by simp only [zeroConvOpt]
  | some n, s => by
      simp only [zeroConvOpt, visitOpt]
      exact visit_zeroConv n s

end

/-- Erasing format specifiers does not change the detection result. -/
theorem call_eraseSpecs (s : VState) (m : Node) :
    PythonSourceCompatibility_call s (eraseSpecs m) =
      PythonSourceCompatibility_call s m := by
  cases m
  case Module body =>
    have h := visit_eraseSpecs (.Module body) s
    simp only [eraseSpecs] at h
    simp only [eraseSpecs, PythonSourceCompatibility_call, h]
  all_goals simp only [eraseSpecs, PythonSourceCompatibility_call]

/-- Zeroing conversion flags does not change the detection result. -/
theorem call_zeroConv (s : VState) (m : Node) :
    PythonSourceCompatibility_call s (zeroConv m) =
      PythonSourceCompatibility_call s m := by
  cases m
  case Module body =>
    have h := visit_zeroConv (.Module body) s
    simp only [zeroConv] at h
    simp only [zeroConv, PythonSourceCompatibility_call, h]
  all_goals simp only [zeroConv, PythonSourceCompatibility_call]

/-- Detection is invariant under `eraseSpecs`, for every ceiling. -/
theorem detect_eraseSpecs (c : Version) (m : Node) :
    detect c (eraseSpecs m) = detect c m :=
  call_eraseSpecs (initVState c) m

/-- Detection is invariant under `zeroConv`, for every ceiling. -/
theorem detect_zeroConv (c : Version) (m : Node) :
    detect c (zeroConv m) = detect c m :=
  call_zeroConv (initVState c) m

/-- C8 counterexample: the claim says the conversion flag of a
formatted-value node "is visited normally and does affect the result", but
the conversion flag is a non-node scalar that the child filter skips: no two
trees that differ only in conversion flags (same image under `zeroConv`)
ever produce different detection results, for any ceiling. -/
theorem claim_C8_counterexample :
    ¬ ∃ (c : Version) (t1 t2 : Node),
        zeroConv t1 = zeroConv t2 ∧ detect c t1 ≠ detect c t2 := by
  rintro ⟨c, t1, t2, he, hne⟩
  exact hne (by rw [← detect_zeroConv c t1, he, detect_zeroConv c t2])

/-- C8 (amended): the result of detection is unchanged when the
format-specifier subtree of any formatted-value node is replaced by an
arbitrary subtree (that field is never recursed into), and the value
expression of a formatted-value node is visited normally and does affect the
result; the conversion flag, being a non-node scalar, does not. -/
theorem claim_C8 :
    (∀ (c : Version) (t1 t2 : Node),
        eraseSpecs t1 = eraseSpecs t2 → detect c t1 = detect c t2) ∧
    (detect (3, 13) (.Module [.FormattedValue (.Await []) 0 none]) =
        some ((3, 5), (3, 13)) ∧
     detect (3, 13) (.Module [.FormattedValue .Str 0 none]) =
        some ((2, 7), (3, 13))) := by
  refine ⟨?_, ?_, ?_⟩
  · intro c t1 t2 h
    rw [← detect_eraseSpecs c t1, h, detect_eraseSpecs c t2]
  · simp [detect, PythonSourceCompatibility_call, initVState, visit,
      visitList, set_minimum, verLt, Bind.bind, Except.bind]
  · simp [detect, PythonSourceCompatibility_call, initVState, visit,
      visitList, Bind.bind, Except.bind]

/-- C8 witness: replacing the format specifier of a formatted-value node by
an arbitrary subtree — here even one containing a pin-producing
type-parameter node — leaves the result unchanged. -/
theorem claim_C8_witness :
    detect (3, 13)
        (.Module [.FormattedValue .Str 0 (some (.TypeVar none))]) =
      detect (3, 13) (.Module [.FormattedValue .Str 0 none]) :=
  claim_C8.1 (3, 13)
    (.Module [.FormattedValue .Str 0 (some (.TypeVar none))])
    (.Module [.FormattedValue .Str 0 none])
    (by simp [eraseSpecs, eraseSpecsList, eraseSpecsOpt])
